import Mathlib

/-
Verification of the pudl repository core against its specification.

The development shallowly embeds the two source modules:
  * pudl/outputs.py          (output materialization: column ordering,
                              temporal aggregation, entity joins)
  * src/pudl/io_managers.py  (SQLite storage loader and foreign-key
                              integrity verifier)

Machine floats are modelled by exact rationals together with the three
non-finite float results (positive infinity, negative infinity, NaN),
produced by the division operator exactly where IEEE division on exact
inputs produces them.  Nullable columns are modelled by Option.  Pandas
dataframes are modelled by lists of structures, one structure field per
column that the verified claims mention.
-/

namespace PudlSpec

/-! ## Generic list helpers: first-occurrence deduplication (pandas
`drop_duplicates` / `unique`), used by several embedded functions. -/

/-- Auxiliary recursion for first-occurrence deduplication: `seen` holds the
elements already emitted. -/
def dedupFirstAux {α : Type} [DecidableEq α] (seen : List α) : List α → List α
  | [] => []
  | a :: as =>
    if a ∈ seen then dedupFirstAux seen as
    else a :: dedupFirstAux (a :: seen) as

/-- First-occurrence deduplication, the semantics of pandas
`drop_duplicates` and `Series.unique`. -/
def dedupFirst {α : Type} [DecidableEq α] (l : List α) : List α :=
  dedupFirstAux [] l

/-! ## String comparison

Python sorts strings lexicographically by code point.  The standard
decision procedure for the order on `String` does not reduce inside the
kernel, so the embedding carries its own lexicographic comparison on the
character data and a proof that it agrees with the standard order. -/

/-- Lexicographic strict comparison of character lists, by code point:
the semantics of Python string comparison. -/
def charListLtB : List Char → List Char → Bool
  | [], [] => false
  | [], _ :: _ => true
  | _ :: _, [] => false
  | a :: as, b :: bs =>
    if a < b then true else if b < a then false else charListLtB as bs

/-- Non-strict string comparison as in Python: total order by code
point. -/
def strLeB (a b : String) : Bool := !(charListLtB b.data a.data)

/-- Strict Python string comparison, for lexicographic sort keys. -/
def strLtB (a b : String) : Bool := charListLtB a.data b.data

/-- The Python comparison as a relation, for sorting. -/
def strLeR (a b : String) : Prop := strLeB a b = true

instance strLeR.decidable : DecidableRel strLeR := fun a b =>
  inferInstanceAs (Decidable (strLeB a b = true))

namespace Outputs

/-! ## Column organizer (`outputs.organize_cols`, outputs.py lines 41-58)

The source builds the list of data columns (all dataframe columns not
among the lead columns), sorts it, prepends the lead columns and selects
`df[organized_cols]`.  Selecting with a label that is not a dataframe
column raises KeyError, modelled by the `none` result.  A dataframe is
modelled by its column list here, since only the column ordering is at
stake. -/

/-- Embedding of `organize_cols(df, cols)` from outputs.py.  `dfCols` is
the column list of the dataframe `df`; `cols` is the caller lead-column
list.  `none` models the KeyError raised by the final `df[organized_cols]`
selection when a requested column is absent from the dataframe. -/
def organize_cols (dfCols : List String) (cols : List String) : Option (List String) :=
  let data_cols := List.insertionSort strLeR
    (dfCols.filter (fun c => decide (c ∉ cols)))
  let organized_cols := cols ++ data_cols
  if organized_cols.all (fun c => decide (c ∈ dfCols)) then some organized_cols else none

end Outputs

namespace FkCheck

/-! ## Integrity verifier
(`SQLiteIOManager._get_fk_list` and `SQLiteIOManager.check_foreign_keys`,
io_managers.py lines 160-242)

The database schema is modelled by the foreign-key declarations of each
table; `PRAGMA foreign_key_list(t)` emits one row per column of each
declared constraint of `t`, and `PRAGMA foreign_key_check` yields the raw
orphan-row listing, which is an input here since it depends on the stored
data. -/

/-- One column pair of a foreign-key constraint: the referencing column of
the child table and the referenced column of the parent table. -/
structure FkColumnRef where
  fromCol : String
  toCol : String
deriving DecidableEq

/-- A declared foreign-key constraint of one child table. -/
structure FkConstraint where
  parent : String
  columns : List FkColumnRef
deriving DecidableEq

/-- The foreign-key declarations of one table: the part of the database
metadata that the verifier consults. -/
structure TableSchema where
  name : String
  fks : List FkConstraint
deriving DecidableEq

/-- One row of `PRAGMA foreign_key_list(t)`.  The pragma emits one row per
column of each constraint: `fkid` (the pragma `id` column) identifies the
constraint and is shared by the rows of one multi-column constraint;
`parentTable` (the pragma `table` column) is the referenced table. -/
structure FkListRow where
  fkid : Nat
  parentTable : String
  fromCol : String
  toCol : String
deriving DecidableEq

/-- The rows of `PRAGMA foreign_key_list` for one table, one row per
constraint column, constraints numbered consecutively. -/
def pragma_foreign_key_list (s : TableSchema) : List FkListRow :=
  s.fks.enum.flatMap fun p =>
    p.2.columns.map fun c =>
      { fkid := p.1, parentTable := p.2.parent, fromCol := c.fromCol, toCol := c.toCol }

/-- The descriptor string built by
`table_fks.groupby("table")["to"].transform(lambda field: "(" + ", ".join(field) + ")")`:
for each row, the `to` columns of all rows sharing the same parent table
(the grouping is by the parent-table column only, not by constraint id),
joined with commas and parenthesized. -/
def fkDescr (rows : List FkListRow) (parentTable : String) : String :=
  "(" ++ String.intercalate ", "
    ((rows.filter (fun r => decide (r.parentTable = parentTable))).map (fun r => r.toCol))
    ++ ")"

/-- A collapsed foreign-key record as produced by `_get_fk_list`: the
pragma `id` renamed `fkid`, the pragma `table` column renamed `parent`,
the descriptor in `fk`, and the child table name in `table`. -/
structure FkRecord where
  fkid : Nat
  parent : String
  fk : String
  table : String
deriving DecidableEq

/-- Embedding of `SQLiteIOManager._get_fk_list` (io_managers.py lines
160-185): attach the descriptor to every pragma row, keep the
`(id, table, fk)` columns, drop duplicate rows (first occurrence kept),
rename, and add the child table name. -/
def get_fk_list (s : TableSchema) : List FkRecord :=
  let table_fks := pragma_foreign_key_list s
  let keyed := table_fks.map fun r => (r.fkid, r.parentTable, fkDescr table_fks r.parentTable)
  (dedupFirst keyed).map fun t =>
    { fkid := t.1, parent := t.2.1, fk := t.2.2, table := s.name }

/-- One row of `PRAGMA foreign_key_check`: child table, rowid of the
offending row, referenced parent table, and constraint id. -/
structure FkCheckRow where
  table : String
  rowid : Int
  parent : String
  fkid : Nat
deriving DecidableEq

/-- `pd.concat([self._get_fk_list(table) for table in tables_with_fk_errors])`
where `tables_with_fk_errors = fk_errors.table.unique().tolist()`. -/
def collectFks (schemas : List TableSchema) (fk_errors : List FkCheckRow) : List FkRecord :=
  (dedupFirst (fk_errors.map (fun v => v.table))).flatMap fun t =>
    match schemas.find? (fun s => decide (s.name = t)) with
    | some s => get_fk_list s
    | none => []

/-- The left merge on `["parent", "fkid", "table"]`: the descriptor
attached to one raw violation row, when the collapsed list has a matching
record; `none` models the NaN left-merge miss. -/
def violDescr (tfks : List FkRecord) (v : FkCheckRow) : Option String :=
  (tfks.find? (fun f => decide (f.parent = v.parent ∧ f.fkid = v.fkid ∧ f.table = v.table))).map
    (fun f => f.fk)

/-- The group key of one merged violation row for
`groupby(["table", "parent", "fk"])`; `none` when the merge attached no
descriptor (pandas drops rows with missing group keys). -/
def violKey (tfks : List FkRecord) (v : FkCheckRow) :
    Option (String × String × String) :=
  (violDescr tfks v).map fun d => (v.table, v.parent, d)

/-- Embedding of the `ForeignKeyError` carrier (io_managers.py lines
20-45): child table, parent table, descriptor string, offending rowids. -/
structure ForeignKeyError where
  child_table : String
  parent_table : String
  foreign_key : String
  rowids : List Int
deriving DecidableEq

/-- The `(child_table, parent_table, foreign_key)` group key of an
emitted error. -/
def errKey (e : ForeignKeyError) : String × String × String :=
  (e.child_table, e.parent_table, e.foreign_key)

/-- Lexicographic comparison of `(table, parent, fk)` group keys: pandas
`groupby` emits groups in ascending key order. -/
def key3LeB (a b : String × String × String) : Bool :=
  strLtB a.1 b.1 ||
    (a.1 == b.1 && (strLtB a.2.1 b.2.1 ||
      (a.2.1 == b.2.1 && strLeB a.2.2 b.2.2)))

/-- Ascending group-key order of pandas `groupby`. -/
def sortKeys3 (ks : List (String × String × String)) : List (String × String × String) :=
  List.insertionSort (fun a b => key3LeB a b = true) ks

/-- Embedding of `SQLiteIOManager.check_foreign_keys` (io_managers.py
lines 187-242).  `none` models a normal return, `some errs` models the
raised `ForeignKeyErrors(errs)` aggregate. -/
def check_foreign_keys (schemas : List TableSchema) (fk_errors : List FkCheckRow) :
    Option (List ForeignKeyError) :=
  if fk_errors.isEmpty then none
  else
    let tfks := collectFks schemas fk_errors
    let keys := sortKeys3 (dedupFirst (fk_errors.filterMap (violKey tfks)))
    some (keys.map fun k =>
      { child_table := k.1, parent_table := k.2.1, foreign_key := k.2.2,
        rowids := (fk_errors.filter
          (fun v => decide (violKey tfks v = some k))).map (fun v => v.rowid) })

/-- A child table declaring two distinct single-column foreign keys that
reference the same parent table. -/
def twoFkChild : TableSchema :=
  { name := "c",
    fks := [ { parent := "p", columns := [{ fromCol := "x", toCol := "a" }] },
             { parent := "p", columns := [{ fromCol := "y", toCol := "b" }] } ] }

/-- The schema of the single-orphan scenario: one child table with one
single-column foreign key to the parent table. -/
def orphanChildSchema : TableSchema :=
  { name := "child",
    fks := [{ parent := "parent", columns := [{ fromCol := "parent_id", toCol := "id" }] }] }

/-- The single injected orphan row of the scenario. -/
def orphanViolation : FkCheckRow :=
  { table := "child", rowid := 42, parent := "parent", fkid := 0 }

end FkCheck

namespace Loader

/-! ## Storage loader
(`SQLiteIOManager._get_sqlalchemy_table` and
`SQLiteIOManager._handle_pandas_output`, io_managers.py lines 137-158 and
244-277)

The durable database state is a map from table name to committed row
list.  The source opens a plain connection (`engine.connect()`, never
`engine.begin()`), so under the SQLAlchemy 1.x connection semantics used
by the source each `con.execute` DML statement is committed on its own
(library-level autocommit), while `DataFrame.to_sql` wraps only its own
insert in a transaction.  The embedding therefore commits the delete
before the insert starts; a failing insert rolls back the insert alone.
The `insertFails` flag selects the failing execution path. -/

/-- The durable store: committed rows per table name. -/
def Store (α : Type) : Type := List (String × List α)

/-- Committed contents of one table (empty when absent). -/
def getTable {α : Type} (s : Store α) (t : String) : List α :=
  match s.find? (fun p => decide (p.1 = t)) with
  | some p => p.2
  | none => []

/-- Commit new contents for one table. -/
def setTable {α : Type} (s : Store α) (t : String) (rows : List α) : Store α :=
  s.filter (fun p => decide (p.1 ≠ t)) ++ [(t, rows)]

/-- An observability event of the logger. -/
inductive LogEvent where
  | warning (msg : String)
deriving DecidableEq

/-- Embedding of `SQLiteIOManager._get_sqlalchemy_table` (lines 137-158):
look the table up in the registered metadata; when it is absent, return
nothing and log the degraded-mode warning (the source interpolates the
`None` lookup result into the message). -/
def get_sqlalchemy_table (md : List String) (table_name : String) :
    Option String × List LogEvent :=
  if table_name ∈ md then (some table_name, [])
  else (none,
    [LogEvent.warning
      "None not found in database metadata. Dtypes of returned DataFrame might be incorrect."])

/-- Embedding of `SQLiteIOManager._handle_pandas_output` (lines 244-277)
acting on the durable store.  `md` is the set of table names registered in
the metadata, `df` the new rows, `insertFails` whether the insert step
fails.  Returns the durable store after the call together with the logged
events.

With a registered schema the source executes `sa_table.delete()` on a
plain connection (committed at once under autocommit) and then appends
`df` via `to_sql`, whose own transaction is rolled back if the insert
fails.  Without a registered schema the source calls `to_sql` with
`if_exists="replace"`, a single transactional replace. -/
def handle_pandas_output {α : Type} (md : List String) (table_name : String)
    (df : List α) (insertFails : Bool) (store : Store α) : Store α × List LogEvent :=
  let r := get_sqlalchemy_table md table_name
  match r.1 with
  | none =>
    if insertFails then (store, r.2)
    else (setTable store table_name df, r.2)
  | some _ =>
    let afterDelete := setTable store table_name []
    if insertFails then (afterDelete, r.2)
    else (setTable afterDelete table_name df, r.2)

end Loader

namespace Agg

/-! ## Temporal aggregator
(`generation_fuel_eia923`, outputs.py lines 384-487, and
`fuel_receipts_costs_eia923`, outputs.py lines 490-630, frequency path)

Float cells are exact rationals; the recomputed ratio cells use `pdiv`,
which produces the IEEE results NaN and signed infinity exactly where
numpy float division on exact inputs produces them.  The `groupby` over
`(plant, fuel category, time bucket)` with a `pd.Grouper` on the date
index is modelled by bucketing the report date to the month or year start
and aggregating each distinct key, keys in ascending order as pandas
emits groups. -/

/-- A float cell: an exact finite value or one of the three non-finite
IEEE results. -/
inductive PVal where
  | num (x : ℚ)
  | pinf
  | ninf
  | nan
deriving DecidableEq

/-- Float division of exact values: NaN for zero over zero, signed
infinity for a nonzero numerator over zero, the exact quotient
otherwise. -/
def pdiv (a b : ℚ) : PVal :=
  if b = 0 then (if a = 0 then PVal.nan else if 0 < a then PVal.pinf else PVal.ninf)
  else PVal.num (a / b)

/-- Whether a float cell is a finite number. -/
def PVal.isFinite : PVal → Bool
  | num _ => true
  | _ => false

/-- The aggregation frequencies the claims exercise: month start and year
start (pandas offset aliases MS and YS). -/
inductive Freq where
  | MS
  | YS
deriving DecidableEq

/-- A calendar date. -/
structure Date where
  year : Int
  month : Nat
  day : Nat
deriving DecidableEq

/-- The bucket a report date falls into under a frequency: the month
start or the year start, as the pandas Grouper assigns it. -/
def bucketStart : Freq → Date → Date
  | Freq.MS, d => { year := d.year, month := d.month, day := 1 }
  | Freq.YS, d => { year := d.year, month := 1, day := 1 }

/-- Chronological comparison of dates, for group-key order. -/
def dateLeB (a b : Date) : Bool :=
  decide (a.year < b.year) ||
    (decide (a.year = b.year) && (decide (a.month < b.month) ||
      (decide (a.month = b.month) && decide (a.day ≤ b.day))))

/-- Sum of one numeric column over the records of a group. -/
def qsum {α : Type} (f : α → ℚ) (l : List α) : ℚ := (l.map f).sum

/-! ### fuel_receipts_costs_eia923 -/

/-- One row of the fuel receipts and costs table, restricted to the
columns the frequency path touches. -/
structure FrcRecord where
  plant_id : Int
  energy_source_simple : String
  report_date : Date
  fuel_quantity : ℚ
  fuel_cost_per_mmbtu : ℚ
  heat_content_mmbtu_per_unit : ℚ
  sulfur_content_pct : ℚ
  ash_content_pct : ℚ
  mercury_content_ppm : ℚ
deriving DecidableEq

/-- `total_heat_content_mmbtu` derived per record (outputs.py lines
559-560). -/
def total_heat_content_mmbtu (r : FrcRecord) : ℚ :=
  r.heat_content_mmbtu_per_unit * r.fuel_quantity

/-- `total_fuel_cost` derived per record (lines 561-562). -/
def total_fuel_cost (r : FrcRecord) : ℚ :=
  total_heat_content_mmbtu r * r.fuel_cost_per_mmbtu

/-- `total_sulfur_content` derived per record (lines 572-573). -/
def total_sulfur_content (r : FrcRecord) : ℚ :=
  r.sulfur_content_pct * r.fuel_quantity

/-- `total_ash_content` derived per record (lines 570-571). -/
def total_ash_content (r : FrcRecord) : ℚ :=
  r.ash_content_pct * r.fuel_quantity

/-- `total_mercury_content` derived per record (lines 574-575). -/
def total_mercury_content (r : FrcRecord) : ℚ :=
  r.mercury_content_ppm * r.fuel_quantity

/-- The `groupby` key: `["plant_id", "energy_source_simple", pd.Grouper(freq)]`
(line 564 and 568). -/
structure FrcKey where
  plant_id : Int
  energy_source_simple : String
  bucket : Date
deriving DecidableEq

/-- The group key of one record under a frequency. -/
def frcKey (freq : Freq) (r : FrcRecord) : FrcKey :=
  { plant_id := r.plant_id, energy_source_simple := r.energy_source_simple,
    bucket := bucketStart freq r.report_date }

/-- Ascending order on fuel-receipt group keys. -/
def frcKeyLeB (a b : FrcKey) : Bool :=
  decide (a.plant_id < b.plant_id) ||
    (decide (a.plant_id = b.plant_id) &&
      (strLtB a.energy_source_simple b.energy_source_simple ||
        (decide (a.energy_source_simple = b.energy_source_simple) &&
          dateLeB a.bucket b.bucket)))

/-- One aggregated output row of the frequency path (sums, then the
recomputed weighted-average cells, lines 577-596). -/
structure FrcAggRow where
  plant_id : Int
  energy_source_simple : String
  report_date : Date
  fuel_quantity : ℚ
  total_heat_content_mmbtu : ℚ
  total_fuel_cost : ℚ
  fuel_cost_per_mmbtu : PVal
  heat_content_mmbtu_per_unit : PVal
  sulfur_content_pct : PVal
  ash_content_pct : PVal
  mercury_content_ppm : PVal
deriving DecidableEq

/-- Aggregation of one bucket: sums of the additive columns, then each
ratio recomputed as a quotient of two sums (lines 577-596). -/
def frcAggBucket (k : FrcKey) (rs : List FrcRecord) : FrcAggRow :=
  { plant_id := k.plant_id
    energy_source_simple := k.energy_source_simple
    report_date := k.bucket
    fuel_quantity := qsum (fun r => r.fuel_quantity) rs
    total_heat_content_mmbtu := qsum total_heat_content_mmbtu rs
    total_fuel_cost := qsum total_fuel_cost rs
    fuel_cost_per_mmbtu :=
      pdiv (qsum total_fuel_cost rs) (qsum total_heat_content_mmbtu rs)
    heat_content_mmbtu_per_unit :=
      pdiv (qsum total_heat_content_mmbtu rs) (qsum (fun r => r.fuel_quantity) rs)
    sulfur_content_pct :=
      pdiv (qsum total_sulfur_content rs) (qsum (fun r => r.fuel_quantity) rs)
    ash_content_pct :=
      pdiv (qsum total_ash_content rs) (qsum (fun r => r.fuel_quantity) rs)
    mercury_content_ppm :=
      pdiv (qsum total_mercury_content rs) (qsum (fun r => r.fuel_quantity) rs) }

/-- The frequency path of `fuel_receipts_costs_eia923` (lines 565-600):
group the records by `(plant, fuel category, bucket)` and aggregate each
group, groups in ascending key order. -/
def fuel_receipts_costs_eia923_agg (freq : Freq) (rs : List FrcRecord) : List FrcAggRow :=
  let keys := List.insertionSort (fun a b => frcKeyLeB a b = true)
    (dedupFirst (rs.map (frcKey freq)))
  keys.map fun k => frcAggBucket k (rs.filter (fun r => decide (frcKey freq r = k)))

/-! ### generation_fuel_eia923 -/

/-- One row of the generation fuel table, restricted to the columns the
frequency path touches.  The heat total and the physical-quantity total
are independently reported columns here. -/
structure GfRecord where
  plant_id : Int
  aer_fuel_category : String
  report_date : Date
  fuel_consumed_total : ℚ
  fuel_consumed_for_electricity : ℚ
  fuel_consumed_total_mmbtu : ℚ
  fuel_consumed_for_electricity_mmbtu : ℚ
  net_generation_mwh : ℚ
deriving DecidableEq

/-- The `groupby` key: `["plant_id", "aer_fuel_category", pd.Grouper(freq)]`
(lines 438-442). -/
structure GfKey where
  plant_id : Int
  aer_fuel_category : String
  bucket : Date
deriving DecidableEq

/-- The group key of one record under a frequency. -/
def gfKey (freq : Freq) (r : GfRecord) : GfKey :=
  { plant_id := r.plant_id, aer_fuel_category := r.aer_fuel_category,
    bucket := bucketStart freq r.report_date }

/-- Ascending order on generation-fuel group keys. -/
def gfKeyLeB (a b : GfKey) : Bool :=
  decide (a.plant_id < b.plant_id) ||
    (decide (a.plant_id = b.plant_id) &&
      (strLtB a.aer_fuel_category b.aer_fuel_category ||
        (decide (a.aer_fuel_category = b.aer_fuel_category) &&
          dateLeB a.bucket b.bucket)))

/-- One aggregated output row of the frequency path (lines 446-454). -/
structure GfAggRow where
  plant_id : Int
  aer_fuel_category : String
  report_date : Date
  fuel_consumed_total : ℚ
  fuel_consumed_for_electricity : ℚ
  fuel_consumed_total_mmbtu : ℚ
  fuel_consumed_for_electricity_mmbtu : ℚ
  net_generation_mwh : ℚ
  fuel_mmbtu_per_unit : PVal
deriving DecidableEq

/-- Aggregation of one bucket: the five columns summed, then
`fuel_mmbtu_per_unit` recomputed as the quotient of two of the sums
(lines 446-454). -/
def gfAggBucket (k : GfKey) (rs : List GfRecord) : GfAggRow :=
  { plant_id := k.plant_id
    aer_fuel_category := k.aer_fuel_category
    report_date := k.bucket
    fuel_consumed_total := qsum (fun r => r.fuel_consumed_total) rs
    fuel_consumed_for_electricity := qsum (fun r => r.fuel_consumed_for_electricity) rs
    fuel_consumed_total_mmbtu := qsum (fun r => r.fuel_consumed_total_mmbtu) rs
    fuel_consumed_for_electricity_mmbtu :=
      qsum (fun r => r.fuel_consumed_for_electricity_mmbtu) rs
    net_generation_mwh := qsum (fun r => r.net_generation_mwh) rs
    fuel_mmbtu_per_unit :=
      pdiv (qsum (fun r => r.fuel_consumed_total_mmbtu) rs)
        (qsum (fun r => r.fuel_consumed_total) rs) }

/-- The frequency path of `generation_fuel_eia923` (lines 439-456). -/
def generation_fuel_eia923_agg (freq : Freq) (rs : List GfRecord) : List GfAggRow :=
  let keys := List.insertionSort (fun a b => gfKeyLeB a b = true)
    (dedupFirst (rs.map (gfKey freq)))
  keys.map fun k => gfAggBucket k (rs.filter (fun r => decide (gfKey freq r = k)))

/-- Two fuel receipts in one bucket with equal quantities: sulfur
fractions 0 and 2, quantities 1 and 1. -/
def frcEqW1 : FrcRecord :=
  { plant_id := 1, energy_source_simple := "coal", report_date := ⟨2020, 1, 5⟩,
    fuel_quantity := 1, fuel_cost_per_mmbtu := 0, heat_content_mmbtu_per_unit := 0,
    sulfur_content_pct := 0, ash_content_pct := 0, mercury_content_ppm := 0 }

/-- Companion record of `frcEqW1` in the same month bucket. -/
def frcEqW2 : FrcRecord :=
  { plant_id := 1, energy_source_simple := "coal", report_date := ⟨2020, 1, 25⟩,
    fuel_quantity := 1, fuel_cost_per_mmbtu := 0, heat_content_mmbtu_per_unit := 0,
    sulfur_content_pct := 2, ash_content_pct := 0, mercury_content_ppm := 0 }

/-- A single receipt with zero quantity and sulfur fraction 5. -/
def frcZeroQ : FrcRecord :=
  { plant_id := 1, energy_source_simple := "coal", report_date := ⟨2020, 1, 5⟩,
    fuel_quantity := 0, fuel_cost_per_mmbtu := 0, heat_content_mmbtu_per_unit := 0,
    sulfur_content_pct := 5, ash_content_pct := 0, mercury_content_ppm := 0 }

/-- Two fuel receipts in one month bucket with different quantities and
different fractions. -/
def frcW1 : FrcRecord :=
  { plant_id := 1, energy_source_simple := "coal", report_date := ⟨2020, 1, 5⟩,
    fuel_quantity := 1, fuel_cost_per_mmbtu := 4, heat_content_mmbtu_per_unit := 2,
    sulfur_content_pct := 0, ash_content_pct := 0, mercury_content_ppm := 0 }

/-- Companion record of `frcW1` in the same month bucket. -/
def frcW2 : FrcRecord :=
  { plant_id := 1, energy_source_simple := "coal", report_date := ⟨2020, 1, 25⟩,
    fuel_quantity := 3, fuel_cost_per_mmbtu := 6, heat_content_mmbtu_per_unit := 5,
    sulfur_content_pct := 2, ash_content_pct := 1, mercury_content_ppm := 1 }

/-- A generation-fuel record whose physical quantity is zero while the
independently reported heat total is 7. -/
def gfInf : GfRecord :=
  { plant_id := 1, aer_fuel_category := "gas", report_date := ⟨2020, 3, 10⟩,
    fuel_consumed_total := 0, fuel_consumed_for_electricity := 0,
    fuel_consumed_total_mmbtu := 7, fuel_consumed_for_electricity_mmbtu := 0,
    net_generation_mwh := 0 }

/-- A generation-fuel record with every measure zero. -/
def gfNan : GfRecord :=
  { plant_id := 1, aer_fuel_category := "gas", report_date := ⟨2020, 3, 10⟩,
    fuel_consumed_total := 0, fuel_consumed_for_electricity := 0,
    fuel_consumed_total_mmbtu := 0, fuel_consumed_for_electricity_mmbtu := 0,
    net_generation_mwh := 0 }

end Agg

namespace Joins

/-! ## Entity joins and essential-key dropping
(`generation_eia923`, outputs.py lines 751-826, frequency None path)

The fact table is joined onto the annual plant-utility lookup by
`analysis.merge_on_date_year`; the helper itself is not part of the
source tree, so it is modelled from the spec.  Unmatched left-join rows
carry missing values in the merged columns; `dropna(subset=...)` then
keeps exactly the rows whose essential id columns all resolved, and the
final `astype(int)` casts make the kept id columns integer typed. -/

/-- One row of the generation_eia923 fact table, restricted to the
columns the join path touches. -/
structure GenRecord where
  plant_id : Int
  generator_id : String
  report_date : Agg.Date
  net_generation_mwh : ℚ
deriving DecidableEq

/-- One row of the `plants_utils_eia` lookup: annual plant and utility
ids and names.  The id columns are integer valued because
`plants_utils_eia` ends in `dropna()` and `astype(int)` (outputs.py lines
165-167). -/
structure PuRow where
  report_date : Agg.Date
  plant_id : Int
  plant_name : String
  plant_id_pudl : Int
  operator_id : Int
  operator_name : String
  util_id_pudl : Int
deriving DecidableEq

/-- A fact row after the annual merge: the merged columns are present
exactly when the lookup matched. -/
structure GenJoined where
  plant_id : Int
  generator_id : String
  report_date : Agg.Date
  net_generation_mwh : ℚ
  plant_name : Option String
  plant_id_pudl : Option Int
  operator_id : Option Int
  operator_name : Option String
  util_id_pudl : Option Int
deriving DecidableEq

/-- Modelled from the spec: `analysis.merge_on_date_year` is called at
outputs.py line 792 but the analysis module is not part of the source
tree.  Spec section 4.1: a left join of the dated fact table onto the
annual dimension table, matching on the entity key and the calendar year
independent of day and month precision, preserving fact-row cardinality
(the dimension side is keyed many-to-one). -/
def mergeGenRow (pu : List PuRow) (r : GenRecord) : GenJoined :=
  match pu.find? (fun p => decide (p.plant_id = r.plant_id ∧
      p.report_date.year = r.report_date.year)) with
  | some p =>
    { plant_id := r.plant_id, generator_id := r.generator_id,
      report_date := r.report_date, net_generation_mwh := r.net_generation_mwh,
      plant_name := some p.plant_name, plant_id_pudl := some p.plant_id_pudl,
      operator_id := some p.operator_id, operator_name := some p.operator_name,
      util_id_pudl := some p.util_id_pudl }
  | none =>
    { plant_id := r.plant_id, generator_id := r.generator_id,
      report_date := r.report_date, net_generation_mwh := r.net_generation_mwh,
      plant_name := none, plant_id_pudl := none,
      operator_id := none, operator_name := none, util_id_pudl := none }

/-- Modelled from the spec: the whole-table merge, one joined row per
fact row. -/
def merge_on_date_year (g : List GenRecord) (pu : List PuRow) : List GenJoined :=
  g.map (mergeGenRow pu)

/-- The `dropna` subset of generation_eia923 (outputs.py lines 800-806):
the merged id columns that must have resolved (the fact-side `plant_id`
and `generator_id` of the subset are never missing by type). -/
def genEssentialResolved (j : GenJoined) : Bool :=
  j.plant_id_pudl.isSome && j.operator_id.isSome && j.util_id_pudl.isSome

/-- One output row after the final `astype(int)` casts (lines 822-824). -/
structure GenOut where
  report_date : Agg.Date
  plant_id : Int
  plant_id_pudl : Int
  plant_name : Option String
  operator_id : Int
  util_id_pudl : Int
  operator_name : Option String
  generator_id : String
  net_generation_mwh : ℚ
deriving DecidableEq

/-- The integer casts applied to a kept row. -/
def finalizeGen (j : GenJoined) : GenOut :=
  { report_date := j.report_date, plant_id := j.plant_id,
    plant_id_pudl := j.plant_id_pudl.getD 0, plant_name := j.plant_name,
    operator_id := j.operator_id.getD 0, util_id_pudl := j.util_id_pudl.getD 0,
    operator_name := j.operator_name, generator_id := j.generator_id,
    net_generation_mwh := j.net_generation_mwh }

/-- Embedding of `generation_eia923` with frequency None (outputs.py
lines 751-826): annual merge, silent drop of rows with unresolved
essential ids, integer casts.  The `organize_cols` call affects column
order only, which row structures do not track. -/
def generation_eia923 (g : List GenRecord) (pu : List PuRow) : List GenOut :=
  ((merge_on_date_year g pu).filter genEssentialResolved).map finalizeGen

/-- A fact record that resolves against the concrete lookup row. -/
def genHit : GenRecord :=
  { plant_id := 1, generator_id := "g1", report_date := ⟨2020, 6, 1⟩,
    net_generation_mwh := 10 }

/-- A fact record whose plant has no lookup row. -/
def genMiss : GenRecord :=
  { plant_id := 2, generator_id := "g2", report_date := ⟨2020, 6, 1⟩,
    net_generation_mwh := 20 }

/-- The concrete lookup row for plant 1 in 2020. -/
def puOne : PuRow :=
  { report_date := ⟨2020, 1, 1⟩, plant_id := 1, plant_name := "Plant One",
    plant_id_pudl := 11, operator_id := 7, operator_name := "Op Seven",
    util_id_pudl := 77 }

end Joins

namespace Ids

/-! ## Surrogate identifier typing
(`plants_utils_eia`, outputs.py lines 108-169; the id-attachment tail of
`generation_fuel_eia923`, lines 458-485; `plants_utils_ferc1` and
`plants_steam_ferc1`, lines 172-183 and 834-866)

The surrogate id columns of the lookup tables are integer valued in the
store (external schema registry; spec section 3: assigned once,
immutable).  A left join carries them as nullable floats, modelled as
`Option ℚ`; `dropna` plus `astype(int)` recovers integers.  The FERC
output attaches them through inner joins, which preserve the integer
typing directly. -/

/-- Truncation toward zero: the semantics of the pandas float to int
astype cast on the exact float values. -/
def qtrunc (q : ℚ) : Int := if 0 ≤ q then ⌊q⌋ else ⌈q⌉

/-- The columns `plants_utils_eia` selects from `plants_eia860`
(outputs.py lines 126-133). -/
structure PlantsEia860Row where
  report_date : Agg.Date
  plant_id : Int
  plant_name : String
  operator_id : Int
deriving DecidableEq

/-- The columns selected from `utilities_eia860` (lines 135-141). -/
structure UtilsEia860Row where
  report_date : Agg.Date
  operator_id : Int
  operator_name : String
deriving DecidableEq

/-- The columns selected from `utilities_eia` (lines 148-153): the
utility surrogate id is integer valued in the store. -/
structure UtilsEiaRow where
  operator_id : Int
  util_id_pudl : Int
deriving DecidableEq

/-- The columns selected from `plants_eia` (lines 157-162): the plant
surrogate id is integer valued in the store. -/
structure PlantsEiaRow where
  plant_id : Int
  plant_id_pudl : Int
deriving DecidableEq

/-- A `plants_utils_eia` row after the three left merges (lines 144-163):
the merged columns are nullable, the surrogate ids nullable floats. -/
structure PuMerged where
  report_date : Agg.Date
  plant_id : Int
  plant_name : String
  operator_id : Int
  operator_name : Option String
  util_id_pudl : Option ℚ
  plant_id_pudl : Option ℚ
deriving DecidableEq

/-- The three left merges of `plants_utils_eia` for one `plants_eia860`
row (lines 144-163), each dimension side keyed many-to-one. -/
def mergePuRow (u860 : List UtilsEia860Row) (ueia : List UtilsEiaRow)
    (peia : List PlantsEiaRow) (p : PlantsEia860Row) : PuMerged :=
  { report_date := p.report_date, plant_id := p.plant_id, plant_name := p.plant_name,
    operator_id := p.operator_id,
    operator_name := (u860.find? (fun u => decide (u.report_date = p.report_date ∧
      u.operator_id = p.operator_id))).map (fun u => u.operator_name),
    util_id_pudl := (ueia.find? (fun u => decide (u.operator_id = p.operator_id))).map
      (fun u => ((u.util_id_pudl : ℚ))),
    plant_id_pudl := (peia.find? (fun q => decide (q.plant_id = p.plant_id))).map
      (fun q => ((q.plant_id_pudl : ℚ))) }

/-- The `dropna()` of `plants_utils_eia` (line 165): every merged column
must have resolved. -/
def puAllResolved (m : PuMerged) : Bool :=
  m.operator_name.isSome && m.util_id_pudl.isSome && m.plant_id_pudl.isSome

/-- The `astype(int)` casts of `plants_utils_eia` (lines 166-167). -/
def puFinalize (m : PuMerged) : Joins.PuRow :=
  { report_date := m.report_date, plant_id := m.plant_id, plant_name := m.plant_name,
    plant_id_pudl := qtrunc (m.plant_id_pudl.getD 0), operator_id := m.operator_id,
    operator_name := m.operator_name.getD "", util_id_pudl := qtrunc (m.util_id_pudl.getD 0) }

/-- Embedding of `plants_utils_eia` (outputs.py lines 108-169). -/
def plants_utils_eia (p860 : List PlantsEia860Row) (u860 : List UtilsEia860Row)
    (ueia : List UtilsEiaRow) (peia : List PlantsEiaRow) : List Joins.PuRow :=
  ((p860.map (mergePuRow u860 ueia peia)).filter puAllResolved).map puFinalize

/-- A generation-fuel fact row entering the id-attachment tail. -/
structure GfFact where
  plant_id : Int
  report_date : Agg.Date
  fuel_consumed_total_mmbtu : ℚ
deriving DecidableEq

/-- A fact row after the annual merge (outputs.py line 460): the id
columns arrive as nullable floats from the left join. -/
structure GfMerged where
  plant_id : Int
  report_date : Agg.Date
  fuel_consumed_total_mmbtu : ℚ
  plant_name : Option String
  plant_id_pudl : Option ℚ
  operator_id : Option ℚ
  operator_name : Option String
  util_id_pudl : Option ℚ
deriving DecidableEq

/-- Modelled from the spec: the `merge_on_date_year` call of
`generation_fuel_eia923` (outputs.py line 460); as in `Joins.mergeGenRow`,
a left join on plant and calendar year, with the merged id columns
float typed. -/
def mergeGfRow (pu : List Joins.PuRow) (r : GfFact) : GfMerged :=
  match pu.find? (fun p => decide (p.plant_id = r.plant_id ∧
      p.report_date.year = r.report_date.year)) with
  | some p =>
    { plant_id := r.plant_id, report_date := r.report_date,
      fuel_consumed_total_mmbtu := r.fuel_consumed_total_mmbtu,
      plant_name := some p.plant_name, plant_id_pudl := some ((p.plant_id_pudl : ℚ)),
      operator_id := some ((p.operator_id : ℚ)), operator_name := some p.operator_name,
      util_id_pudl := some ((p.util_id_pudl : ℚ)) }
  | none =>
    { plant_id := r.plant_id, report_date := r.report_date,
      fuel_consumed_total_mmbtu := r.fuel_consumed_total_mmbtu,
      plant_name := none, plant_id_pudl := none,
      operator_id := none, operator_name := none, util_id_pudl := none }

/-- The `dropna` subset of `generation_fuel_eia923` (lines 462-469). -/
def gfIdsResolved (m : GfMerged) : Bool :=
  m.plant_id_pudl.isSome && m.plant_name.isSome && m.operator_id.isSome &&
    m.util_id_pudl.isSome && m.operator_name.isSome

/-- One output row after the `astype(int)` casts (lines 482-485). -/
structure GfOut where
  report_date : Agg.Date
  plant_id : Int
  plant_id_pudl : Int
  plant_name : Option String
  operator_id : Int
  util_id_pudl : Int
  operator_name : Option String
  fuel_consumed_total_mmbtu : ℚ
deriving DecidableEq

/-- The integer casts applied to a kept generation-fuel row (lines
482-485). -/
def gfFinalize (m : GfMerged) : GfOut :=
  { report_date := m.report_date, plant_id := m.plant_id,
    plant_id_pudl := qtrunc (m.plant_id_pudl.getD 0), plant_name := m.plant_name,
    operator_id := qtrunc (m.operator_id.getD 0),
    util_id_pudl := qtrunc (m.util_id_pudl.getD 0), operator_name := m.operator_name,
    fuel_consumed_total_mmbtu := m.fuel_consumed_total_mmbtu }

/-- Embedding of the id-attachment tail of `generation_fuel_eia923`
(outputs.py lines 458-485). -/
def generation_fuel_ids (facts : List GfFact) (pu : List Joins.PuRow) : List GfOut :=
  ((facts.map (mergeGfRow pu)).filter gfIdsResolved).map gfFinalize

/-- One row of the `plants_ferc` lookup: the plant surrogate id is
integer valued in the store. -/
structure PlantsFercRow where
  respondent_id : Int
  plant_name : String
  plant_id_pudl : Int
deriving DecidableEq

/-- One row of the `utilities_ferc` lookup. -/
structure UtilsFercRow where
  respondent_id : Int
  respondent_name : String
  util_id_pudl : Int
deriving DecidableEq

/-- One row of the FERC Form 1 steam table, restricted to the columns the
join touches. -/
structure SteamRow where
  respondent_id : Int
  plant_name : String
  report_year : Int
  capacity_mw : ℚ
deriving DecidableEq

/-- One row of `plants_utils_ferc1`. -/
structure PuFercRow where
  respondent_id : Int
  plant_name : String
  plant_id_pudl : Int
  respondent_name : String
  util_id_pudl : Int
deriving DecidableEq

/-- Embedding of `plants_utils_ferc1` (outputs.py lines 172-183): an
inner merge of the FERC plant and utility tables on the respondent. -/
def plants_utils_ferc1 (pf : List PlantsFercRow) (uf : List UtilsFercRow) : List PuFercRow :=
  pf.flatMap fun p =>
    (uf.filter (fun u => decide (u.respondent_id = p.respondent_id))).map fun u =>
      { respondent_id := p.respondent_id, plant_name := p.plant_name,
        plant_id_pudl := p.plant_id_pudl, respondent_name := u.respondent_name,
        util_id_pudl := u.util_id_pudl }

/-- One output row of `plants_steam_ferc1`. -/
structure SteamOut where
  report_year : Int
  respondent_id : Int
  util_id_pudl : Int
  respondent_name : String
  plant_id_pudl : Int
  plant_name : String
  capacity_mw : ℚ
deriving DecidableEq

/-- Embedding of `plants_steam_ferc1` (outputs.py lines 834-866): an
inner merge of the steam table with `plants_utils_ferc1` on respondent
and plant name. -/
def plants_steam_ferc1 (steam : List SteamRow) (pf : List PlantsFercRow)
    (uf : List UtilsFercRow) : List SteamOut :=
  steam.flatMap fun s =>
    ((plants_utils_ferc1 pf uf).filter (fun p => decide (p.respondent_id = s.respondent_id ∧
        p.plant_name = s.plant_name))).map fun p =>
      { report_year := s.report_year, respondent_id := s.respondent_id,
        util_id_pudl := p.util_id_pudl, respondent_name := p.respondent_name,
        plant_id_pudl := p.plant_id_pudl, plant_name := s.plant_name,
        capacity_mw := s.capacity_mw }

/-- A concrete FERC steam row of the witness scenario. -/
def steamW : SteamRow :=
  { respondent_id := 3, plant_name := "S", report_year := 2019, capacity_mw := 100 }

/-- The concrete FERC plant lookup row. -/
def pfW : PlantsFercRow :=
  { respondent_id := 3, plant_name := "S", plant_id_pudl := 11 }

/-- The concrete FERC utility lookup row. -/
def ufW : UtilsFercRow :=
  { respondent_id := 3, respondent_name := "U", util_id_pudl := 77 }

/-- The output row `plants_steam_ferc1` produces for the scenario. -/
def steamOutW : SteamOut :=
  { report_year := 2019, respondent_id := 3, util_id_pudl := 77,
    respondent_name := "U", plant_id_pudl := 11, plant_name := "S",
    capacity_mw := 100 }

/-- The `plants_utils_ferc1` row of the witness scenario. -/
def puFW : PuFercRow :=
  { respondent_id := 3, plant_name := "S", plant_id_pudl := 11,
    respondent_name := "U", util_id_pudl := 77 }

end Ids

end PudlSpec

/-! ## Theorems -/

namespace PudlSpec

theorem mem_dedupFirstAux {α : Type} [DecidableEq α] (seen : List α) (l : List α) (x : α) :
    x ∈ dedupFirstAux seen l ↔ x ∈ l ∧ x ∉ seen := by
  induction l generalizing seen with
  | nil => simp [dedupFirstAux]
  | cons a as ih =>
    by_cases h : a ∈ seen
    · rw [dedupFirstAux, if_pos h, ih]
      constructor
      · rintro ⟨hx, hn⟩
        exact ⟨List.mem_cons_of_mem a hx, hn⟩
      · rintro ⟨hx, hn⟩
        rcases List.mem_cons.mp hx with rfl | hx
        · exact absurd h hn
        · exact ⟨hx, hn⟩
    · rw [dedupFirstAux, if_neg h]
      constructor
      · intro hx
        rcases List.mem_cons.mp hx with rfl | hx
        · exact ⟨List.mem_cons_self x as, h⟩
        · rcases (ih (a :: seen)).mp hx with ⟨h1, h2⟩
          exact ⟨List.mem_cons_of_mem a h1,
            fun hc => h2 (List.mem_cons_of_mem a hc)⟩
      · rintro ⟨hx, hn⟩
        rcases List.mem_cons.mp hx with rfl | hx
        · exact List.mem_cons_self _ _
        · by_cases hax : x = a
          · subst hax; exact List.mem_cons_self _ _
          · refine List.mem_cons_of_mem a ((ih (a :: seen)).mpr ⟨hx, fun hc => ?_⟩)
            rcases List.mem_cons.mp hc with h1 | h2
            · exact hax h1
            · exact hn h2

theorem mem_dedupFirst {α : Type} [DecidableEq α] (l : List α) (x : α) :
    x ∈ dedupFirst l ↔ x ∈ l := by
  simp [dedupFirst, mem_dedupFirstAux]

theorem nodup_dedupFirstAux {α : Type} [DecidableEq α] (seen : List α) (l : List α) :
    (dedupFirstAux seen l).Nodup := by
  induction l generalizing seen with
  | nil => simp [dedupFirstAux]
  | cons a as ih =>
    by_cases h : a ∈ seen
    · simpa [dedupFirstAux, if_pos h] using ih seen
    · simp only [dedupFirstAux, if_neg h, List.nodup_cons]
      refine ⟨fun hc => ?_, ih (a :: seen)⟩
      exact ((mem_dedupFirstAux (a :: seen) as a).mp hc).2 (List.mem_cons_self a seen)

theorem nodup_dedupFirst {α : Type} [DecidableEq α] (l : List α) :
    (dedupFirst l).Nodup :=
  nodup_dedupFirstAux [] l

theorem charListLtB_iff : ∀ as bs : List Char, charListLtB as bs = true ↔ as < bs
  | [], [] => by
    rw [charListLtB]
    exact ⟨fun h => Bool.noConfusion h, fun h => nomatch h⟩
  | [], b :: bs => by
    rw [charListLtB]
    exact ⟨fun _ => List.nil_lt_cons b bs, fun _ => rfl⟩
  | _ :: _, [] => by
    rw [charListLtB]
    exact ⟨fun h => Bool.noConfusion h, fun h => nomatch h⟩
  | a :: as, b :: bs => by
    rw [charListLtB]
    by_cases h1 : a < b
    · rw [if_pos h1]
      exact ⟨fun _ => List.Lex.rel h1, fun _ => rfl⟩
    · rw [if_neg h1]
      by_cases h2 : b < a
      · rw [if_pos h2]
        constructor
        · exact fun h => Bool.noConfusion h
        · intro h
          cases h with
          | rel hab => exact absurd hab h1
          | cons htl => exact absurd h2 h1
      · rw [if_neg h2, charListLtB_iff as bs]
        have hab : a = b := le_antisymm (not_lt.mp h2) (not_lt.mp h1)
        subst hab
        constructor
        · exact fun h => List.Lex.cons h
        · intro h
          cases h with
          | rel hab => exact absurd hab h1
          | cons htl => exact htl

theorem strLeB_iff (a b : String) : strLeB a b = true ↔ a ≤ b := by
  have hlt : b < a ↔ charListLtB b.data a.data = true := by
    rw [String.lt_iff_toList_lt]
    exact (charListLtB_iff b.data a.data).symm
  unfold strLeB
  cases hcb : charListLtB b.data a.data
  · simp only [Bool.not_false]
    constructor
    · intro _
      apply not_lt.mp
      intro hc
      rw [hlt.mp hc] at hcb
      exact Bool.noConfusion hcb
    · intro _
      trivial
  · simp only [Bool.not_true]
    constructor
    · intro hfalse
      exact Bool.noConfusion hfalse
    · intro hle
      exact absurd (hlt.mpr hcb) (not_lt.mpr hle)

instance strLeR.total : IsTotal String strLeR :=
  ⟨fun a b => by
    rcases le_total a b with h | h
    · exact Or.inl ((strLeB_iff a b).mpr h)
    · exact Or.inr ((strLeB_iff b a).mpr h)⟩

instance strLeR.trans : IsTrans String strLeR :=
  ⟨fun a b c hab hbc =>
    (strLeB_iff a c).mpr (le_trans ((strLeB_iff a b).mp hab) ((strLeB_iff b c).mp hbc))⟩

namespace Outputs

/-- C6: when every lead column occurs in the dataframe, `organize_cols`
returns the lead columns first, in the caller-given order, followed by the
remaining dataframe columns sorted alphabetically; in particular on lead
columns A, B over data columns D, C the output order is exactly
A, B, C, D. -/
theorem organize_cols_order (dfCols cols : List String)
    (h : ∀ c ∈ cols, c ∈ dfCols) :
    (∃ rest, organize_cols dfCols cols = some (cols ++ rest) ∧
      List.Sorted (· ≤ ·) rest ∧
      (∀ c, c ∈ rest ↔ (c ∈ dfCols ∧ c ∉ cols))) ∧
    organize_cols ["A", "B", "D", "C"] ["A", "B"] = some ["A", "B", "C", "D"] := by
  constructor
  · refine ⟨List.insertionSort strLeR
      (dfCols.filter (fun c => decide (c ∉ cols))), ?_, ?_, ?_⟩
    · unfold organize_cols
      rw [if_pos]
      rw [List.all_eq_true]
      intro c hc
      rcases List.mem_append.mp hc with hl | hr
      · exact decide_eq_true (h c hl)
      · have := List.mem_filter.mp ((List.mem_insertionSort _).mp hr)
        exact decide_eq_true this.1
    · exact ((List.sorted_insertionSort strLeR _).imp
        (fun hab => (strLeB_iff _ _).mp hab) : _)
    · intro c
      rw [List.mem_insertionSort, List.mem_filter]
      simp
  · decide

/-- C6 witness: the general ordering theorem applied to the concrete
dataframe of the claim. -/
theorem organize_cols_order_witness :
    (∀ c ∈ ["A", "B"], c ∈ ["A", "B", "D", "C"]) ∧
    ((∃ rest, organize_cols ["A", "B", "D", "C"] ["A", "B"] = some (["A", "B"] ++ rest) ∧
      List.Sorted (· ≤ ·) rest ∧
      (∀ c, c ∈ rest ↔ (c ∈ ["A", "B", "D", "C"] ∧ c ∉ ["A", "B"]))) ∧
     organize_cols ["A", "B", "D", "C"] ["A", "B"] = some ["A", "B", "C", "D"]) :=
  ⟨by decide, organize_cols_order ["A", "B", "D", "C"] ["A", "B"] (by decide)⟩

/-- C7: when some lead column is absent from the dataframe, `organize_cols`
fails (models the KeyError raised by the column selection); it never
returns a result. -/
theorem organize_cols_missing_lead (dfCols cols : List String) (c : String)
    (hc : c ∈ cols) (hm : c ∉ dfCols) :
    organize_cols dfCols cols = none := by
  unfold organize_cols
  rw [if_neg]
  intro hall
  rw [List.all_eq_true] at hall
  have := hall c (List.mem_append.mpr (Or.inl hc))
  exact hm (of_decide_eq_true this)

/-- C7 witness: requesting lead column Z over a dataframe lacking it
aborts the call. -/
theorem organize_cols_missing_lead_witness :
    ("Z" ∈ ["A", "Z"] ∧ "Z" ∉ ["A", "B"]) ∧
    organize_cols ["A", "B"] ["A", "Z"] = none :=
  ⟨⟨by decide, by decide⟩,
    organize_cols_missing_lead ["A", "B"] ["A", "Z"] "Z" (by decide) (by decide)⟩

end Outputs

namespace FkCheck

/-- C1: evaluation of the constraint enumeration on a child table with two
distinct foreign keys referencing the same parent table.  One record per
`(child, constraint id)` pair survives, but because the descriptor
grouping is by parent table only, both records carry the mixed descriptor
listing the columns of both constraints, and the correct single-column
descriptor of the first constraint appears nowhere. -/
theorem get_fk_list_mixes_sibling_descriptors :
    (get_fk_list twoFkChild).map (fun r => (r.fkid, r.fk))
      = [(0, "(a, b)"), (1, "(a, b)")] ∧
    (0, "(a)") ∉ (get_fk_list twoFkChild).map (fun r => (r.fkid, r.fk)) := by
  decide

/-- C2: the verifier raises exactly when the raw violation listing is
nonempty; when it raises, the aggregate carries one entry per distinct
`(child_table, parent_table, descriptor)` group, every raw violation is
represented in its group together with its rowid (never only the first
violation), no group is spurious, each group carries exactly the rowids of
its violations; and on the store with a single orphan row the verifier
reports exactly one error naming the child table, the parent table and the
orphan rowid. -/
theorem check_foreign_keys_spec (schemas : List TableSchema) (fk_errors : List FkCheckRow)
    (hres : ∀ v ∈ fk_errors, (violKey (collectFks schemas fk_errors) v).isSome) :
    (check_foreign_keys schemas fk_errors = none ↔ fk_errors = []) ∧
    (∀ errs, check_foreign_keys schemas fk_errors = some errs →
      (errs.map errKey).Nodup ∧
      (∀ v ∈ fk_errors, ∃ e ∈ errs,
        violKey (collectFks schemas fk_errors) v = some (errKey e) ∧ v.rowid ∈ e.rowids) ∧
      (∀ e ∈ errs, ∃ v ∈ fk_errors,
        violKey (collectFks schemas fk_errors) v = some (errKey e)) ∧
      (∀ e ∈ errs, e.rowids =
        (fk_errors.filter
          (fun v => decide (violKey (collectFks schemas fk_errors) v = some (errKey e)))).map
          (fun v => v.rowid))) ∧
    check_foreign_keys [orphanChildSchema] [orphanViolation]
      = some [{ child_table := "child", parent_table := "parent",
                foreign_key := "(id)", rowids := [42] }] := by
  refine ⟨?_, ?_, by decide⟩
  · unfold check_foreign_keys
    by_cases h : fk_errors.isEmpty
    · rw [if_pos h]
      simp [List.isEmpty_iff.mp h]
    · rw [if_neg h]
      constructor
      · intro hc
        exact Option.noConfusion hc
      · intro hc
        subst hc
        exact absurd rfl h
  · intro errs heq
    by_cases h : fk_errors.isEmpty
    · have h0 : fk_errors = [] := List.isEmpty_iff.mp h
      subst h0
      rw [show check_foreign_keys schemas [] = none from rfl] at heq
      exact Option.noConfusion heq
    · unfold check_foreign_keys at heq
      rw [if_neg h] at heq
      injection heq with herrs
      subst herrs
      set tfks := collectFks schemas fk_errors with htfks
      set keys := sortKeys3 (dedupFirst (fk_errors.filterMap (violKey tfks))) with hkeys
      have hkmem : ∀ k, k ∈ keys ↔ ∃ v ∈ fk_errors, violKey tfks v = some k := by
        intro k
        rw [hkeys]
        unfold sortKeys3
        rw [List.mem_insertionSort, mem_dedupFirst, List.mem_filterMap]
      refine ⟨?_, ?_, ?_, ?_⟩
      · have hmapkeys : ∀ ks : List (String × String × String),
            (ks.map fun k =>
              ({ child_table := k.1, parent_table := k.2.1, foreign_key := k.2.2,
                 rowids := (fk_errors.filter
                   (fun v => decide (violKey tfks v = some k))).map (fun v => v.rowid) }
                 : ForeignKeyError)).map errKey = ks := by
          intro ks
          induction ks with
          | nil => rfl
          | cons a t ih =>
            rw [List.map_cons, List.map_cons, ih]
            rfl
        rw [hmapkeys keys]
        have hnd : (dedupFirst (fk_errors.filterMap (violKey tfks))).Nodup :=
          nodup_dedupFirst _
        exact ((List.perm_insertionSort _ _).nodup_iff).mpr hnd
      · intro v hv
        have hk := hres v hv
        rcases Option.isSome_iff_exists.mp hk with ⟨k, hkv⟩
        refine ⟨_, List.mem_map_of_mem _ ((hkmem k).mpr ⟨v, hv, hkv⟩), hkv, ?_⟩
        apply List.mem_map_of_mem
        rw [List.mem_filter]
        exact ⟨hv, decide_eq_true hkv⟩
      · intro e he
        rcases List.mem_map.mp he with ⟨k, hkmem2, hke⟩
        rcases (hkmem k).mp hkmem2 with ⟨v, hv, hkv⟩
        exact ⟨v, hv, hke ▸ hkv⟩
      · intro e he
        rcases List.mem_map.mp he with ⟨k, _, hke⟩
        subst hke
        rfl

/-- C2 witness: the verifier specification applied to the concrete
single-orphan store. -/
theorem check_foreign_keys_spec_witness :
    (∀ v ∈ [orphanViolation],
      (violKey (collectFks [orphanChildSchema] [orphanViolation]) v).isSome) ∧
    ((check_foreign_keys [orphanChildSchema] [orphanViolation] = none ↔
        [orphanViolation] = []) ∧
     (∀ errs, check_foreign_keys [orphanChildSchema] [orphanViolation] = some errs →
       (errs.map errKey).Nodup ∧
       (∀ v ∈ [orphanViolation], ∃ e ∈ errs,
         violKey (collectFks [orphanChildSchema] [orphanViolation]) v = some (errKey e) ∧
           v.rowid ∈ e.rowids) ∧
       (∀ e ∈ errs, ∃ v ∈ [orphanViolation],
         violKey (collectFks [orphanChildSchema] [orphanViolation]) v = some (errKey e)) ∧
       (∀ e ∈ errs, e.rowids =
         (([orphanViolation]).filter
           (fun v => decide (violKey (collectFks [orphanChildSchema] [orphanViolation]) v
             = some (errKey e)))).map (fun v => v.rowid))) ∧
     check_foreign_keys [orphanChildSchema] [orphanViolation]
       = some [{ child_table := "child", parent_table := "parent",
                 foreign_key := "(id)", rowids := [42] }]) :=
  ⟨by decide, check_foreign_keys_spec [orphanChildSchema] [orphanViolation] (by decide)⟩

end FkCheck

namespace Loader

theorem getTable_setTable {α : Type} (s : Store α) (t : String) (rows : List α) :
    getTable (setTable s t rows) t = rows := by
  unfold getTable setTable
  induction s with
  | nil => simp
  | cons p ps ih =>
    by_cases h : p.1 = t
    · simpa [h] using ih
    · simpa [List.filter_cons, h, List.find?] using ih

/-- C3: evaluation of the loader on the failing path.  The table `t` is
registered in the metadata and durably holds rows `[1, 2]`; the write of
`[3]` fails during the insert.  Because the delete was committed in its
own implicit transaction before the insert began, the failed call leaves
the table durably empty rather than restoring the previously committed
rows: the delete-then-insert replacement is not rolled back on the
failure exit path. -/
theorem handle_pandas_output_failed_write_empties_table :
    getTable ((handle_pandas_output ["t"] "t" [(3 : Int)] true [("t", [1, 2])]).1) "t" = [] ∧
    getTable [("t", [(1 : Int), 2])] "t" = [1, 2] := by
  decide

/-- C10: writing to a table with no registered schema succeeds, the
written rows become the complete durable contents of the table, and the
degraded mode is signalled by a logged warning event; the log is never
empty on this path. -/
theorem handle_pandas_output_degraded_mode {α : Type} (md : List String)
    (table_name : String) (df : List α) (store : Store α)
    (h : table_name ∉ md) :
    getTable (handle_pandas_output md table_name df false store).1 table_name = df ∧
    (handle_pandas_output md table_name df false store).2 ≠ [] ∧
    ∃ m, LogEvent.warning m ∈ (handle_pandas_output md table_name df false store).2 := by
  unfold handle_pandas_output get_sqlalchemy_table
  rw [if_neg h]
  refine ⟨getTable_setTable store table_name df, ?_, ?_⟩
  · intro hc
    exact List.noConfusion hc
  · exact ⟨_, List.mem_cons_self _ _⟩

/-- C10 witness: the degraded-mode theorem applied to an unregistered
table over a concrete store. -/
theorem handle_pandas_output_degraded_mode_witness :
    ("u" ∉ ["t"]) ∧
    (getTable (handle_pandas_output ["t"] "u" [(5 : Int)] false [("t", [1])]).1 "u" = [5] ∧
     (handle_pandas_output ["t"] "u" [(5 : Int)] false [("t", [1])]).2 ≠ [] ∧
     ∃ m, LogEvent.warning m ∈ (handle_pandas_output ["t"] "u" [(5 : Int)] false [("t", [1])]).2) :=
  ⟨by decide, handle_pandas_output_degraded_mode ["t"] "u" [(5 : Int)] [("t", [1])] (by decide)⟩

end Loader

namespace Agg

theorem dedupFirstAux_eq_nil {α : Type} [DecidableEq α] (seen : List α) (l : List α)
    (h : ∀ x ∈ l, x ∈ seen) : dedupFirstAux seen l = [] := by
  induction l generalizing seen with
  | nil => rfl
  | cons a as ih =>
    rw [dedupFirstAux, if_pos (h a (List.mem_cons_self _ _))]
    exact ih seen (fun x hx => h x (List.mem_cons_of_mem a hx))

theorem dedupFirst_all_eq {α : Type} [DecidableEq α] (l : List α) (k : α)
    (hne : l ≠ []) (h : ∀ x ∈ l, x = k) : dedupFirst l = [k] := by
  cases l with
  | nil => exact absurd rfl hne
  | cons a as =>
    have ha : a = k := h a (List.mem_cons_self _ _)
    subst ha
    unfold dedupFirst
    rw [dedupFirstAux, if_neg (List.not_mem_nil a)]
    rw [dedupFirstAux_eq_nil [a] as (fun x hx => by
      rw [h x (List.mem_cons_of_mem a hx)]
      exact List.mem_cons_self _ _)]

/-- A record list forming a single group aggregates to exactly one output
row (fuel receipts). -/
theorem frc_agg_single_bucket (freq : Freq) (k : FrcKey) (rs : List FrcRecord)
    (hne : rs ≠ []) (hk : ∀ r ∈ rs, frcKey freq r = k) :
    fuel_receipts_costs_eia923_agg freq rs = [frcAggBucket k rs] := by
  unfold fuel_receipts_costs_eia923_agg
  have hmap : ∀ x ∈ rs.map (frcKey freq), x = k := by
    intro x hx
    rcases List.mem_map.mp hx with ⟨r, hr, rfl⟩
    exact hk r hr
  have hmapne : rs.map (frcKey freq) ≠ [] := by
    intro hc
    exact hne (List.map_eq_nil_iff.mp hc)
  rw [dedupFirst_all_eq _ k hmapne hmap]
  simp only [List.insertionSort, List.orderedInsert, List.map_cons, List.map_nil]
  rw [List.filter_eq_self.mpr (fun r hr => decide_eq_true (hk r hr))]

/-- A record list forming a single group aggregates to exactly one output
row (generation fuel). -/
theorem gf_agg_single_bucket (freq : Freq) (k : GfKey) (rs : List GfRecord)
    (hne : rs ≠ []) (hk : ∀ r ∈ rs, gfKey freq r = k) :
    generation_fuel_eia923_agg freq rs = [gfAggBucket k rs] := by
  unfold generation_fuel_eia923_agg
  have hmap : ∀ x ∈ rs.map (gfKey freq), x = k := by
    intro x hx
    rcases List.mem_map.mp hx with ⟨r, hr, rfl⟩
    exact hk r hr
  have hmapne : rs.map (gfKey freq) ≠ [] := by
    intro hc
    exact hne (List.map_eq_nil_iff.mp hc)
  rw [dedupFirst_all_eq _ k hmapne hmap]
  simp only [List.insertionSort, List.orderedInsert, List.map_cons, List.map_nil]
  rw [List.filter_eq_self.mpr (fun r hr => decide_eq_true (hk r hr))]

theorem pdiv_eq_num {a b : ℚ} (hb : b ≠ 0) : pdiv a b = PVal.num (a / b) := by
  unfold pdiv
  rw [if_neg hb]

theorem pdiv_zero_zero : pdiv 0 0 = PVal.nan := by
  unfold pdiv
  rw [if_pos rfl, if_pos rfl]

theorem pdiv_pos_zero {a : ℚ} (ha : 0 < a) : pdiv a 0 = PVal.pinf := by
  unfold pdiv
  rw [if_pos rfl, if_neg (ne_of_gt ha), if_pos ha]

/-- C4 counterexample: with equal quantities the aggregated fraction does
equal the unweighted mean of the two per-record fractions, so the claim
that it never does fails; and a single record of zero quantity aggregates
to a NaN fraction, not to the record fraction 5, so single-record
reproduction also fails without a nonzero-weight hypothesis. -/
theorem frc_agg_unweighted_mean_cx :
    (fuel_receipts_costs_eia923_agg Freq.MS [frcEqW1, frcEqW2]).map
        (fun row => row.sulfur_content_pct)
      = [PVal.num ((frcEqW1.sulfur_content_pct + frcEqW2.sulfur_content_pct) / 2)] ∧
    (fuel_receipts_costs_eia923_agg Freq.MS [frcZeroQ]).map
        (fun row => row.sulfur_content_pct) = [PVal.nan] ∧
    PVal.nan ≠ PVal.num frcZeroQ.sulfur_content_pct := by
  refine ⟨?_, ?_, by simp⟩
  · rw [frc_agg_single_bucket Freq.MS (frcKey Freq.MS frcEqW1) [frcEqW1, frcEqW2]
      (by decide) (by decide)]
    simp only [List.map_cons, List.map_nil, frcAggBucket, qsum, total_sulfur_content,
      List.sum_cons, List.sum_nil, add_zero, frcEqW1, frcEqW2]
    rw [pdiv_eq_num (show (1 : ℚ) + 1 ≠ 0 by norm_num)]
    norm_num
  · rw [frc_agg_single_bucket Freq.MS (frcKey Freq.MS frcZeroQ) [frcZeroQ]
      (by decide) (by decide)]
    simp only [List.map_cons, List.map_nil, frcAggBucket, qsum, total_sulfur_content,
      List.sum_cons, List.sum_nil, add_zero, frcZeroQ]
    norm_num [pdiv_zero_zero]

/-- C4 (amended): in every bucket of two records the recomputed ratio
cells equal the quotient of summed per-record products by the summed
weights: content fractions and the heat rate are weighted by quantity,
the fuel cost rate by heat content; the aggregated fraction differs from
the unweighted mean whenever the two quantities and the two fractions
both differ (and the total weight is nonzero); and a single record of
nonzero quantity reproduces its ratio cells unchanged (the cost rate
additionally needs nonzero heat content). -/
theorem frc_weighted_average_agg :
    (∀ (freq : Freq) (r1 r2 : FrcRecord), frcKey freq r1 = frcKey freq r2 →
      ∃ row, fuel_receipts_costs_eia923_agg freq [r1, r2] = [row] ∧
        row.sulfur_content_pct =
          pdiv (r1.sulfur_content_pct * r1.fuel_quantity +
                r2.sulfur_content_pct * r2.fuel_quantity)
               (r1.fuel_quantity + r2.fuel_quantity) ∧
        row.ash_content_pct =
          pdiv (r1.ash_content_pct * r1.fuel_quantity +
                r2.ash_content_pct * r2.fuel_quantity)
               (r1.fuel_quantity + r2.fuel_quantity) ∧
        row.mercury_content_ppm =
          pdiv (r1.mercury_content_ppm * r1.fuel_quantity +
                r2.mercury_content_ppm * r2.fuel_quantity)
               (r1.fuel_quantity + r2.fuel_quantity) ∧
        row.heat_content_mmbtu_per_unit =
          pdiv (r1.heat_content_mmbtu_per_unit * r1.fuel_quantity +
                r2.heat_content_mmbtu_per_unit * r2.fuel_quantity)
               (r1.fuel_quantity + r2.fuel_quantity) ∧
        row.fuel_cost_per_mmbtu =
          pdiv (total_heat_content_mmbtu r1 * r1.fuel_cost_per_mmbtu +
                total_heat_content_mmbtu r2 * r2.fuel_cost_per_mmbtu)
               (total_heat_content_mmbtu r1 + total_heat_content_mmbtu r2) ∧
        (r1.fuel_quantity + r2.fuel_quantity ≠ 0 →
          r1.fuel_quantity ≠ r2.fuel_quantity →
          r1.sulfur_content_pct ≠ r2.sulfur_content_pct →
          row.sulfur_content_pct ≠
            PVal.num ((r1.sulfur_content_pct + r2.sulfur_content_pct) / 2))) ∧
    (∀ (freq : Freq) (r : FrcRecord), r.fuel_quantity ≠ 0 →
      ∃ row, fuel_receipts_costs_eia923_agg freq [r] = [row] ∧
        row.sulfur_content_pct = PVal.num r.sulfur_content_pct ∧
        row.ash_content_pct = PVal.num r.ash_content_pct ∧
        row.mercury_content_ppm = PVal.num r.mercury_content_ppm ∧
        row.heat_content_mmbtu_per_unit = PVal.num r.heat_content_mmbtu_per_unit ∧
        (total_heat_content_mmbtu r ≠ 0 →
          row.fuel_cost_per_mmbtu = PVal.num r.fuel_cost_per_mmbtu)) := by
  constructor
  · intro freq r1 r2 hk12
    have hk : ∀ r ∈ [r1, r2], frcKey freq r = frcKey freq r1 := by
      intro r hr
      rcases List.mem_cons.mp hr with rfl | hr
      · rfl
      · rcases List.mem_cons.mp hr with rfl | hr
        · exact hk12.symm
        · exact absurd hr (List.not_mem_nil r)
    have hsul : (frcAggBucket (frcKey freq r1) [r1, r2]).sulfur_content_pct =
        pdiv (r1.sulfur_content_pct * r1.fuel_quantity +
              r2.sulfur_content_pct * r2.fuel_quantity)
             (r1.fuel_quantity + r2.fuel_quantity) := by
      simp [frcAggBucket, qsum, total_sulfur_content]
    refine ⟨frcAggBucket (frcKey freq r1) [r1, r2],
      frc_agg_single_bucket freq _ [r1, r2] (by simp) hk, hsul, ?_, ?_, ?_, ?_, ?_⟩
    · simp [frcAggBucket, qsum, total_ash_content]
    · simp [frcAggBucket, qsum, total_mercury_content]
    · simp [frcAggBucket, qsum, total_heat_content_mmbtu]
    · simp [frcAggBucket, qsum, total_fuel_cost]
    · intro hQ hq hs heq
      rw [hsul] at heq
      unfold pdiv at heq
      rw [if_neg hQ] at heq
      have hval := PVal.num.inj heq
      have hkey : (r1.sulfur_content_pct - r2.sulfur_content_pct) *
          (r1.fuel_quantity - r2.fuel_quantity) = 0 := by
        field_simp [hQ] at hval
        linear_combination hval
      rcases mul_eq_zero.mp hkey with h3 | h3
      · exact hs (sub_eq_zero.mp h3)
      · exact hq (sub_eq_zero.mp h3)
  · intro freq r hq
    have hk : ∀ x ∈ [r], frcKey freq x = frcKey freq r := by
      intro x hx
      rcases List.mem_cons.mp hx with rfl | hx
      · rfl
      · exact absurd hx (List.not_mem_nil x)
    refine ⟨frcAggBucket (frcKey freq r) [r],
      frc_agg_single_bucket freq _ [r] (by simp) hk, ?_, ?_, ?_, ?_, ?_⟩
    · show pdiv (qsum total_sulfur_content [r]) (qsum (fun x => x.fuel_quantity) [r]) = _
      simp only [qsum, total_sulfur_content, List.map_cons, List.map_nil, List.sum_cons,
        List.sum_nil, add_zero]
      unfold pdiv
      rw [if_neg hq, mul_div_cancel_right₀ _ hq]
    · show pdiv (qsum total_ash_content [r]) (qsum (fun x => x.fuel_quantity) [r]) = _
      simp only [qsum, total_ash_content, List.map_cons, List.map_nil, List.sum_cons,
        List.sum_nil, add_zero]
      unfold pdiv
      rw [if_neg hq, mul_div_cancel_right₀ _ hq]
    · show pdiv (qsum total_mercury_content [r]) (qsum (fun x => x.fuel_quantity) [r]) = _
      simp only [qsum, total_mercury_content, List.map_cons, List.map_nil, List.sum_cons,
        List.sum_nil, add_zero]
      unfold pdiv
      rw [if_neg hq, mul_div_cancel_right₀ _ hq]
    · show pdiv (qsum total_heat_content_mmbtu [r]) (qsum (fun x => x.fuel_quantity) [r]) = _
      simp only [qsum, total_heat_content_mmbtu, List.map_cons, List.map_nil, List.sum_cons,
        List.sum_nil, add_zero]
      unfold pdiv
      rw [if_neg hq, mul_div_cancel_right₀ _ hq]
    · intro hth
      show pdiv (qsum total_fuel_cost [r]) (qsum total_heat_content_mmbtu [r]) = _
      simp only [qsum, total_fuel_cost, List.map_cons, List.map_nil, List.sum_cons,
        List.sum_nil, add_zero]
      unfold pdiv
      rw [if_neg hth, mul_div_cancel_left₀ _ hth]

/-- C4 witness: the amended aggregation theorem applied to a concrete
two-record bucket and to a concrete single-record bucket. -/
theorem frc_weighted_average_agg_witness :
    (frcKey Freq.MS frcW1 = frcKey Freq.MS frcW2) ∧ frcW1.fuel_quantity ≠ 0 ∧
    (∃ row, fuel_receipts_costs_eia923_agg Freq.MS [frcW1, frcW2] = [row] ∧
      row.sulfur_content_pct =
        pdiv (frcW1.sulfur_content_pct * frcW1.fuel_quantity +
              frcW2.sulfur_content_pct * frcW2.fuel_quantity)
             (frcW1.fuel_quantity + frcW2.fuel_quantity)) ∧
    (∃ row, fuel_receipts_costs_eia923_agg Freq.MS [frcW1] = [row] ∧
      row.sulfur_content_pct = PVal.num frcW1.sulfur_content_pct) := by
  refine ⟨by decide, by norm_num [frcW1], ?_, ?_⟩
  · rcases frc_weighted_average_agg.1 Freq.MS frcW1 frcW2 (by decide) with
      ⟨row, h1, h2, _⟩
    exact ⟨row, h1, h2⟩
  · rcases frc_weighted_average_agg.2 Freq.MS frcW1 (by norm_num [frcW1]) with
      ⟨row, h1, h2, _⟩
    exact ⟨row, h1, h2⟩

theorem pdiv_zero_den (a : ℚ) :
    (pdiv a 0).isFinite = false ∧ (a = 0 → pdiv a 0 = PVal.nan) ∧
    (a ≠ 0 → pdiv a 0 = PVal.pinf ∨ pdiv a 0 = PVal.ninf) := by
  unfold pdiv
  rw [if_pos rfl]
  by_cases h : a = 0
  · rw [if_pos h]
    exact ⟨rfl, fun _ => rfl, fun hc => absurd h hc⟩
  · rw [if_neg h]
    by_cases h2 : 0 < a
    · rw [if_pos h2]
      exact ⟨rfl, fun hc => absurd hc h, fun _ => Or.inl rfl⟩
    · rw [if_neg h2]
      exact ⟨rfl, fun hc => absurd hc h, fun _ => Or.inr rfl⟩

/-- C8 (amended): in a bucket whose ratio denominator sums to zero the
aggregation still produces the row (no failure), the summed columns are
produced normally, and the ratio cell is non-finite: NaN (the missing
value) when the numerator also sums to zero, and a signed infinity when
the numerator is nonzero.  Stated for the heat rate of the generation
fuel table and for the quantity-weighted sulfur fraction of the fuel
receipts table. -/
theorem agg_zero_denominator :
    (∀ (freq : Freq) (k : GfKey) (rs : List GfRecord), rs ≠ [] →
      (∀ r ∈ rs, gfKey freq r = k) →
      qsum (fun r => r.fuel_consumed_total) rs = 0 →
      ∃ row, generation_fuel_eia923_agg freq rs = [row] ∧
        row.net_generation_mwh = qsum (fun r => r.net_generation_mwh) rs ∧
        row.fuel_consumed_total_mmbtu = qsum (fun r => r.fuel_consumed_total_mmbtu) rs ∧
        row.fuel_mmbtu_per_unit.isFinite = false ∧
        (qsum (fun r => r.fuel_consumed_total_mmbtu) rs = 0 →
          row.fuel_mmbtu_per_unit = PVal.nan) ∧
        (qsum (fun r => r.fuel_consumed_total_mmbtu) rs ≠ 0 →
          row.fuel_mmbtu_per_unit = PVal.pinf ∨ row.fuel_mmbtu_per_unit = PVal.ninf)) ∧
    (∀ (freq : Freq) (k : FrcKey) (rs : List FrcRecord), rs ≠ [] →
      (∀ r ∈ rs, frcKey freq r = k) →
      qsum (fun r => r.fuel_quantity) rs = 0 →
      ∃ row, fuel_receipts_costs_eia923_agg freq rs = [row] ∧
        row.fuel_quantity = 0 ∧
        row.total_heat_content_mmbtu = qsum total_heat_content_mmbtu rs ∧
        row.sulfur_content_pct.isFinite = false ∧
        (qsum total_sulfur_content rs = 0 → row.sulfur_content_pct = PVal.nan) ∧
        (qsum total_sulfur_content rs ≠ 0 →
          row.sulfur_content_pct = PVal.pinf ∨ row.sulfur_content_pct = PVal.ninf)) := by
  constructor
  · intro freq k rs hne hk hden
    have h1 : (gfAggBucket k rs).fuel_mmbtu_per_unit =
        pdiv (qsum (fun r => r.fuel_consumed_total_mmbtu) rs) 0 := by
      show pdiv _ _ = _
      rw [hden]
    refine ⟨gfAggBucket k rs, gf_agg_single_bucket freq k rs hne hk, rfl, rfl, ?_, ?_, ?_⟩
    · rw [h1]
      exact (pdiv_zero_den _).1
    · intro hz
      rw [h1]
      exact (pdiv_zero_den _).2.1 hz
    · intro hz
      rw [h1]
      exact (pdiv_zero_den _).2.2 hz
  · intro freq k rs hne hk hden
    have h1 : (frcAggBucket k rs).sulfur_content_pct =
        pdiv (qsum total_sulfur_content rs) 0 := by
      show pdiv _ _ = _
      rw [hden]
    refine ⟨frcAggBucket k rs, frc_agg_single_bucket freq k rs hne hk, hden, rfl, ?_, ?_, ?_⟩
    · rw [h1]
      exact (pdiv_zero_den _).1
    · intro hz
      rw [h1]
      exact (pdiv_zero_den _).2.1 hz
    · intro hz
      rw [h1]
      exact (pdiv_zero_den _).2.2 hz

/-- C8 counterexample: a bucket whose denominator sums to zero while the
numerator sums to 7 yields positive infinity in the recomputed heat-rate
cell, an infinite value rather than the missing value the claim
requires. -/
theorem gf_zero_denominator_infinity_cx :
    (generation_fuel_eia923_agg Freq.MS [gfInf]).map (fun row => row.fuel_mmbtu_per_unit)
      = [PVal.pinf] ∧
    qsum (fun r => r.fuel_consumed_total) [gfInf] = 0 ∧
    PVal.pinf ≠ PVal.nan ∧ PVal.pinf.isFinite = false := by
  refine ⟨?_, by simp [qsum, gfInf], by simp, rfl⟩
  rw [gf_agg_single_bucket Freq.MS (gfKey Freq.MS gfInf) [gfInf] (by decide) (by decide)]
  simp only [List.map_cons, List.map_nil, gfAggBucket, qsum, List.sum_cons, List.sum_nil,
    add_zero, gfInf]
  rw [pdiv_pos_zero (show (0 : ℚ) < 7 by norm_num)]

/-- C8 witness: the amended zero-denominator theorem applied to a
concrete all-zero bucket, whose heat-rate cell is NaN. -/
theorem agg_zero_denominator_witness :
    ([gfNan] ≠ ([] : List GfRecord)) ∧
    (∀ r ∈ [gfNan], gfKey Freq.MS r = gfKey Freq.MS gfNan) ∧
    qsum (fun r => r.fuel_consumed_total) [gfNan] = 0 ∧
    (∃ row, generation_fuel_eia923_agg Freq.MS [gfNan] = [row] ∧
      row.fuel_mmbtu_per_unit = PVal.nan) := by
  refine ⟨by decide, by decide, by simp [qsum, gfNan], ?_⟩
  rcases agg_zero_denominator.1 Freq.MS (gfKey Freq.MS gfNan) [gfNan]
      (by decide) (by decide) (by simp [qsum, gfNan]) with ⟨row, h1, _, _, _, h5, _⟩
  exact ⟨row, h1, h5 (by simp [qsum, gfNan])⟩

end Agg

namespace Joins

theorem length_filter_map_comp {α β : Type} (f : α → β) (p : β → Bool) (l : List α) :
    ((l.map f).filter p).length = (l.filter (fun a => p (f a))).length := by
  induction l with
  | nil => rfl
  | cons a l ih =>
    simp only [List.map_cons, List.filter_cons]
    cases hp : p (f a) <;> simp [hp, ih]

/-- C5: every output row of the materialization has all essential id
columns resolved, with the values taken from a matching lookup row; every
successfully resolved joined row is kept; and the output has exactly one
row per fact record whose key resolved against the lookup, so rows with
unresolved essential keys are dropped (silently, the function is total)
rather than retained null-filled. -/
theorem generation_essential_keys (g : List GenRecord) (pu : List PuRow) :
    (∀ row ∈ generation_eia923 g pu, ∃ p ∈ pu,
      p.plant_id = row.plant_id ∧ p.report_date.year = row.report_date.year ∧
      row.plant_id_pudl = p.plant_id_pudl ∧ row.operator_id = p.operator_id ∧
      row.util_id_pudl = p.util_id_pudl ∧ row.plant_name = some p.plant_name ∧
      row.operator_name = some p.operator_name) ∧
    (∀ j ∈ merge_on_date_year g pu, genEssentialResolved j = true →
      finalizeGen j ∈ generation_eia923 g pu) ∧
    (generation_eia923 g pu).length
      = (g.filter (fun r => (pu.find? (fun p => decide (p.plant_id = r.plant_id ∧
          p.report_date.year = r.report_date.year))).isSome)).length := by
  refine ⟨?_, ?_, ?_⟩
  · intro row hrow
    rcases List.mem_map.mp hrow with ⟨j, hj, rfl⟩
    rcases List.mem_filter.mp hj with ⟨hjm, hres⟩
    rcases List.mem_map.mp hjm with ⟨r, hr, rfl⟩
    unfold mergeGenRow at hres ⊢
    cases hfind : pu.find? (fun p => decide (p.plant_id = r.plant_id ∧
        p.report_date.year = r.report_date.year)) with
    | none =>
      rw [hfind] at hres
      simp [genEssentialResolved] at hres
    | some p =>
      have hp := List.mem_of_find?_eq_some hfind
      have hcond := List.find?_some hfind
      rw [decide_eq_true_eq] at hcond
      exact ⟨p, hp, hcond.1, hcond.2, rfl, rfl, rfl, rfl, rfl⟩
  · intro j hj hres
    exact List.mem_map_of_mem _ (List.mem_filter.mpr ⟨hj, hres⟩)
  · unfold generation_eia923 merge_on_date_year
    rw [List.length_map, length_filter_map_comp]
    congr 1
    apply List.filter_congr
    intro r _
    unfold mergeGenRow genEssentialResolved
    cases hfind : pu.find? (fun p => decide (p.plant_id = r.plant_id ∧
        p.report_date.year = r.report_date.year)) <;> rfl

/-- C5 witness: the essential-key theorem applied to a concrete fact pair
of which only one record resolves. -/
theorem generation_essential_keys_witness :
    ((generation_eia923 [genHit, genMiss] [puOne]).length
      = ([genHit, genMiss].filter (fun r =>
          (([puOne]).find? (fun p => decide (p.plant_id = r.plant_id ∧
            p.report_date.year = r.report_date.year))).isSome)).length) ∧
    (∀ row ∈ generation_eia923 [genHit, genMiss] [puOne], ∃ p ∈ [puOne],
      p.plant_id = row.plant_id ∧ p.report_date.year = row.report_date.year ∧
      row.plant_id_pudl = p.plant_id_pudl ∧ row.operator_id = p.operator_id ∧
      row.util_id_pudl = p.util_id_pudl ∧ row.plant_name = some p.plant_name ∧
      row.operator_name = some p.operator_name) :=
  ⟨(generation_essential_keys [genHit, genMiss] [puOne]).2.2,
   (generation_essential_keys [genHit, genMiss] [puOne]).1⟩

end Joins

namespace Ids

theorem qtrunc_intCast (z : Int) : qtrunc ((z : ℚ)) = z := by
  unfold qtrunc
  by_cases h : (0 : ℚ) ≤ (z : ℚ)
  · rw [if_pos h, Int.floor_intCast]
  · rw [if_neg h, Int.ceil_intCast]

/-- C9: the surrogate id columns of every output row are integer typed
and carry exactly the integer values of the lookup tables.  In
`plants_utils_eia` and the `generation_fuel_eia923` tail they arrive as
nullable floats from a left join, and the kept float cells are exactly
the integer casts, so the truncating integer cast loses nothing; in
`plants_steam_ferc1` the inner joins carry the integer columns through
directly. -/
theorem surrogate_ids_integral :
    (∀ (p860 : List PlantsEia860Row) (u860 : List UtilsEia860Row)
       (ueia : List UtilsEiaRow) (peia : List PlantsEiaRow),
      ∀ row ∈ plants_utils_eia p860 u860 ueia peia,
        (∃ v ∈ ueia, row.util_id_pudl = v.util_id_pudl) ∧
        (∃ q ∈ peia, row.plant_id_pudl = q.plant_id_pudl)) ∧
    (∀ (facts : List GfFact) (pu : List Joins.PuRow),
      ∀ row ∈ generation_fuel_ids facts pu, ∃ p ∈ pu, ∃ m,
        m ∈ facts.map (mergeGfRow pu) ∧ row = gfFinalize m ∧
        m.plant_id_pudl = some ((p.plant_id_pudl : ℚ)) ∧
        m.util_id_pudl = some ((p.util_id_pudl : ℚ)) ∧
        row.plant_id_pudl = p.plant_id_pudl ∧
        row.operator_id = p.operator_id ∧
        row.util_id_pudl = p.util_id_pudl) ∧
    (∀ (steam : List SteamRow) (pf : List PlantsFercRow) (uf : List UtilsFercRow),
      ∀ row ∈ plants_steam_ferc1 steam pf uf,
        (∃ p ∈ pf, row.plant_id_pudl = p.plant_id_pudl) ∧
        (∃ u ∈ uf, row.util_id_pudl = u.util_id_pudl)) := by
  refine ⟨?_, ?_, ?_⟩
  · intro p860 u860 ueia peia row hrow
    rcases List.mem_map.mp hrow with ⟨m, hm, rfl⟩
    rcases List.mem_filter.mp hm with ⟨hmm, hres⟩
    rcases List.mem_map.mp hmm with ⟨p, hp, rfl⟩
    unfold mergePuRow at hres
    constructor
    · cases hfind : ueia.find? (fun u => decide (u.operator_id = p.operator_id)) with
      | none =>
        rw [hfind] at hres
        simp [puAllResolved] at hres
      | some v =>
        refine ⟨v, List.mem_of_find?_eq_some hfind, ?_⟩
        show qtrunc (((ueia.find? (fun u => decide (u.operator_id = p.operator_id))).map
          (fun u => ((u.util_id_pudl : ℚ)))).getD 0) = v.util_id_pudl
        rw [hfind]
        simpa using qtrunc_intCast v.util_id_pudl
    · cases hfind : peia.find? (fun q => decide (q.plant_id = p.plant_id)) with
      | none =>
        rw [hfind] at hres
        simp [puAllResolved] at hres
      | some v =>
        refine ⟨v, List.mem_of_find?_eq_some hfind, ?_⟩
        show qtrunc (((peia.find? (fun q => decide (q.plant_id = p.plant_id))).map
          (fun q => ((q.plant_id_pudl : ℚ)))).getD 0) = v.plant_id_pudl
        rw [hfind]
        simpa using qtrunc_intCast v.plant_id_pudl
  · intro facts pu row hrow
    rcases List.mem_map.mp hrow with ⟨m, hm, rfl⟩
    rcases List.mem_filter.mp hm with ⟨hmm, hres⟩
    rcases List.mem_map.mp hmm with ⟨r, hr, rfl⟩
    unfold mergeGfRow at hres
    cases hfind : pu.find? (fun p => decide (p.plant_id = r.plant_id ∧
        p.report_date.year = r.report_date.year)) with
    | none =>
      rw [hfind] at hres
      simp [gfIdsResolved] at hres
    | some p =>
      have h1 : (mergeGfRow pu r).plant_id_pudl = some ((p.plant_id_pudl : ℚ)) := by
        unfold mergeGfRow
        rw [hfind]
      have h2 : (mergeGfRow pu r).operator_id = some ((p.operator_id : ℚ)) := by
        unfold mergeGfRow
        rw [hfind]
      have h3 : (mergeGfRow pu r).util_id_pudl = some ((p.util_id_pudl : ℚ)) := by
        unfold mergeGfRow
        rw [hfind]
      refine ⟨p, List.mem_of_find?_eq_some hfind, mergeGfRow pu r,
        List.mem_map_of_mem _ hr, rfl, h1, h3, ?_, ?_, ?_⟩
      · show qtrunc ((mergeGfRow pu r).plant_id_pudl.getD 0) = p.plant_id_pudl
        rw [h1]
        simpa using qtrunc_intCast p.plant_id_pudl
      · show qtrunc ((mergeGfRow pu r).operator_id.getD 0) = p.operator_id
        rw [h2]
        simpa using qtrunc_intCast p.operator_id
      · show qtrunc ((mergeGfRow pu r).util_id_pudl.getD 0) = p.util_id_pudl
        rw [h3]
        simpa using qtrunc_intCast p.util_id_pudl
  · intro steam pf uf row hrow
    rcases List.mem_flatMap.mp hrow with ⟨s, hs, hrow2⟩
    rcases List.mem_map.mp hrow2 with ⟨p, hpf, rfl⟩
    rcases List.mem_filter.mp hpf with ⟨hpm, _⟩
    rcases List.mem_flatMap.mp hpm with ⟨pr, hpr, hpm2⟩
    rcases List.mem_map.mp hpm2 with ⟨u, huf, rfl⟩
    rcases List.mem_filter.mp huf with ⟨hu, _⟩
    exact ⟨⟨pr, hpr, rfl⟩, ⟨u, hu, rfl⟩⟩

/-- C9 witness: the integrality theorem applied to a concrete steam
output row. -/
theorem surrogate_ids_integral_witness :
    (∃ p ∈ [pfW], steamOutW.plant_id_pudl = p.plant_id_pudl) ∧
    (∃ u ∈ [ufW], steamOutW.util_id_pudl = u.util_id_pudl) := by
  have hpu : puFW ∈ plants_utils_ferc1 [pfW] [ufW] := by
    apply List.mem_flatMap.mpr
    refine ⟨pfW, List.mem_cons_self _ _, ?_⟩
    apply List.mem_map.mpr
    refine ⟨ufW, List.mem_filter.mpr ⟨List.mem_cons_self _ _, by decide⟩, rfl⟩
  have hmem : steamOutW ∈ plants_steam_ferc1 [steamW] [pfW] [ufW] := by
    apply List.mem_flatMap.mpr
    refine ⟨steamW, List.mem_cons_self _ _, ?_⟩
    apply List.mem_map.mpr
    exact ⟨_, List.mem_filter.mpr ⟨hpu, by decide⟩, rfl⟩
  exact surrogate_ids_integral.2.2 [steamW] [pfW] [ufW] steamOutW hmem

end Ids

end PudlSpec

